import Mathlib

/-!
Verification of the repair dispatch service in
`satellite/repair/repairer/repairer.go`.

The Go service is embedded shallowly: the external collaborators
(`queue.Select`, `queue.Delete`, `SegmentRepairer.Repair`,
`irreparable.DB.IncrementRepairAttempts`, the clock) are supplied as
oracle values, and each Go function becomes a pure Lean function over
those oracles.  The semaphore-based admission control is modelled
separately as a step relation on a counter state, since its guarantees
are about interleaved executions.  Durations and Unix timestamps are
integers (nanoseconds where the Go code uses `time.Duration`).
-/

namespace Repairer

/-- The fields of `Config` that the dispatch core consumes directly:
`MaxRepair` (semaphore capacity), `Interval` (poll cycle period) and
`TotalTimeout` (per-job deadline budget).  The remaining `Config` fields
are passed through untouched to the external segment repairer. -/
structure Config where
  maxRepair : Nat
  interval : Int
  totalTimeout : Int
  deriving DecidableEq

/-- `internalpb.InjuredSegment` as used by the dispatch core: the opaque
byte path (`GetPath`) and the queue-insertion timestamp
(`GetInsertedTime`); `insertedTime = 0` models Go's zero `time.Time`,
the case detected by `IsZero()`. -/
structure InjuredSegment where
  path : List Nat
  insertedTime : Int
  deriving DecidableEq

/-- `internalpb.IrreparableSegment`, the record `worker` builds before
calling `IncrementRepairAttempts`.  `segmentDetail` is the opaque
`SegmentDetail` payload taken from the irreparable error. -/
structure IrreparableSegment where
  path : List Nat
  segmentDetail : Nat
  lostPieces : Int
  lastRepairAttempt : Int
  repairAttemptCount : Int
  deriving DecidableEq

/-- The algebra of Go `error` values that flow through `worker`:
`irreparable` is a `*irreparableError` with its diagnostic fields
(`segmentInfo`, `piecesRequired`, `piecesAvailable`); `generic` is any
other repair error; `storeFail` an `IncrementRepairAttempts` failure;
`queueDeleteFail` a `queue.Delete` failure; `removeFromQueueFailed` the
`Error.New("failed to remove segment from queue: %v", delErr)` value;
`combine2` a two-sided `errs.Combine`; `wrapped` an `Error.Wrap`. -/
inductive Err where
  | irreparable (segmentInfo : Nat) (piecesRequired piecesAvailable : Int)
  | generic (code : Nat)
  | storeFail (code : Nat)
  | queueDeleteFail (code : Nat)
  | removeFromQueueFailed (delErr : Err)
  | combine2 (a b : Err)
  | wrapped (e : Err)
  deriving DecidableEq

/-- `errs.Combine` restricted to the two-argument form `worker` uses:
nil operands are dropped; two non-nil errors make a combined error. -/
def errsCombine : Option Err → Option Err → Option Err
  | none, b => b
  | some a, none => some a
  | some a, some b => some (Err.combine2 a b)

/-- Oracle for one `worker` run: the value returned by
`repairer.Repair` (`shouldDelete`, `err`), the outcome of
`irrDB.IncrementRepairAttempts` if that call is made, the outcome of
`queue.Delete` if that call is made, and the clock readings
(`time.Now().Unix()` at record construction, `workerStartTime`,
`repairedTime`). -/
structure WorkerEnv where
  repairShouldDelete : Bool
  repairErr : Option Err
  incrementErr : Option Err
  deleteErr : Option Err
  now : Int
  workerStartTime : Int
  repairedTime : Int
  deriving DecidableEq

/-- A monkit timing observation recorded by `worker`; the value is the
observed duration (the Go code reports it in seconds, here kept as the
integer difference of the clock readings). -/
inductive MetricObs where
  | timeForRepair (v : Int)
  | timeSinceCheckerQueue (v : Int)
  deriving DecidableEq

/-- Observable outcome of one `worker` run: the records passed to
`IncrementRepairAttempts`, the segments passed to `queue.Delete`,
whether the "failed to add segment to irreparableDB" error was logged,
the timing observations, and the Go return value. -/
structure WorkerResult where
  irrDBWrites : List IrreparableSegment
  queueDeletes : List InjuredSegment
  loggedStoreFailure : Bool
  metrics : List MetricObs
  ret : Option Err
  deriving DecidableEq

/-- Local mutable state of the classification block in `worker`: the
current values of `shouldDelete` and `err`, plus the effects emitted so
far. -/
structure ClassState where
  shouldDelete : Bool
  err : Option Err
  irrDBWrites : List IrreparableSegment
  loggedStoreFailure : Bool

/-- State of `worker` at the end of its `if shouldDelete` block, just
before the final `if err != nil` return and the metric observations. -/
structure BodyState where
  irrDBWrites : List IrreparableSegment
  queueDeletes : List InjuredSegment
  loggedStoreFailure : Bool
  err : Option Err

/-- The `if shouldDelete { ... }` block of `Service.worker`: outcome
classification, the `IncrementRepairAttempts` call on an irreparable
error (overriding `shouldDelete` to false when that call fails), and the
conditional `queue.Delete` whose failure is combined into `err`. -/
def workerBody (seg : InjuredSegment) (env : WorkerEnv) : BodyState :=
  let shouldDelete := env.repairShouldDelete
  let err := env.repairErr
  if shouldDelete then
    let c : ClassState :=
      match err with
      | some (Err.irreparable info req avail) =>
          let segmentInfo : IrreparableSegment :=
            ⟨seg.path, info, req - avail, env.now, 1⟩
          match env.incrementErr with
          | some _ => ⟨false, err, [segmentInfo], true⟩
          | none => ⟨true, err, [segmentInfo], false⟩
      | _ => ⟨shouldDelete, err, [], false⟩
    if c.shouldDelete then
      match env.deleteErr with
      | some dErr =>
          ⟨c.irrDBWrites, [seg], c.loggedStoreFailure,
            errsCombine c.err (some (Err.removeFromQueueFailed dErr))⟩
      | none => ⟨c.irrDBWrites, [seg], c.loggedStoreFailure, c.err⟩
    else ⟨c.irrDBWrites, [], c.loggedStoreFailure, c.err⟩
  else ⟨[], [], false, err⟩

/-- The tail of `Service.worker`: `if err != nil { return Error.Wrap(err) }`,
then the `time_for_repair` observation, and the
`time_since_checker_queue` observation only when the segment carries a
non-zero insertion timestamp. -/
def finishWorker (seg : InjuredSegment) (env : WorkerEnv) (b : BodyState) :
    WorkerResult :=
  match b.err with
  | some e =>
      ⟨b.irrDBWrites, b.queueDeletes, b.loggedStoreFailure, [],
        some (Err.wrapped e)⟩
  | none =>
      let timeForRepair := env.repairedTime - env.workerStartTime
      let metrics :=
        if seg.insertedTime = 0 then
          [MetricObs.timeForRepair timeForRepair]
        else
          [MetricObs.timeForRepair timeForRepair,
            MetricObs.timeSinceCheckerQueue
              (env.workerStartTime - seg.insertedTime)]
      ⟨b.irrDBWrites, b.queueDeletes, b.loggedStoreFailure, metrics, none⟩

/-- Shallow embedding of `Service.worker`: runs the repair capability
(via the oracle), classifies the outcome, performs the conditional store
and queue effects, and records metrics on the error-free path. -/
def worker (seg : InjuredSegment) (env : WorkerEnv) : WorkerResult :=
  finishWorker seg env (workerBody seg env)

/-- Context values flowing through `process`: the step's incoming
context, or a context derived by `context.WithTimeout`, carrying the
absolute deadline it was given. -/
inductive Ctx where
  | base
  | withDeadline (parent : Ctx) (deadline : Int)
  deriving DecidableEq

/-- The errors `queue.Select` can return: the distinguished
`storage.ErrEmptyQueue`, or any other I/O failure. -/
inductive SelectErr where
  | emptyQueue
  | ioErr (code : Nat)
  deriving DecidableEq

/-- The errors `Service.process` can return: a failed
`JobLimiter.Acquire` (the step context was cancelled), or a
`queue.Select` error returned unchanged. -/
inductive ProcErr where
  | acquireCanceled
  | selectE (e : SelectErr)
  deriving DecidableEq

/-- The `storage.ErrEmptyQueue.Has(err)` test used by
`processWhileQueueHasItems` on the error returned by `process`. -/
def isEmptyQueue : ProcErr → Bool
  | ProcErr.selectE SelectErr.emptyQueue => true
  | _ => false

/-- The observable actions of one `process` call, in program order:
semaphore acquire, derivation of the deadline context by
`context.WithTimeout` (recording the absolute deadline), the
`queue.Select` call (recording the context it receives), semaphore
release, `cancel()`, and the spawn of the repair goroutine (which
inherits the semaphore unit and the deadline context). -/
inductive Action where
  | acquire
  | deriveDeadline (deadline : Int)
  | select (c : Ctx)
  | release
  | cancel
  | spawnJob (seg : InjuredSegment) (c : Ctx)
  deriving DecidableEq

/-- Whether an action is a `JobLimiter.Release(1)`. -/
def isRelease : Action → Bool
  | Action.release => true
  | _ => false

/-- Whether an action is a `cancel()` of the derived context. -/
def isCancel : Action → Bool
  | Action.cancel => true
  | _ => false

/-- Whether an action spawns the repair goroutine. -/
def isSpawn : Action → Bool
  | Action.spawnJob _ _ => true
  | _ => false

/-- Oracle for one `process` call: whether `JobLimiter.Acquire(ctx, 1)`
fails (incoming context cancelled while waiting), the outcome of
`queue.Select`, and the clock reading at the `context.WithTimeout`
call. -/
structure ProcessEnv where
  acquireCanceled : Bool
  selectResult : Except SelectErr InjuredSegment
  now : Int

/-- Shallow embedding of `Service.process`: acquire one admission unit,
derive the deadline context (deadline `now + TotalTimeout`) before
calling `queue.Select` with it, and on success hand the unit and the
context to a spawned job; on `Select` failure release the unit, cancel
the context, and return the error unchanged.  Returns the ordered
action trace of the call together with the Go return value.  (The
deferred release and cancel of the success path run inside the spawned
goroutine, not in `process` itself.) -/
def process (cfg : Config) (ctx : Ctx) (env : ProcessEnv) :
    List Action × Option ProcErr :=
  if env.acquireCanceled then
    ([], some ProcErr.acquireCanceled)
  else
    let deadline := env.now + cfg.totalTimeout
    let ctxTimeout := Ctx.withDeadline ctx deadline
    match env.selectResult with
    | Except.error e =>
        ([Action.acquire, Action.deriveDeadline deadline,
          Action.select ctxTimeout, Action.release, Action.cancel],
          some (ProcErr.selectE e))
    | Except.ok seg =>
        ([Action.acquire, Action.deriveDeadline deadline,
          Action.select ctxTimeout, Action.spawnJob seg ctxTimeout],
          none)

/-- Result of a `processWhileQueueHasItems` run over a finite list of
per-iteration oracles: `finished logged ret` when the loop returned
(`logged` are the errors it logged, `ret` its Go return value), or
`running` when the supplied oracles were exhausted with the loop still
iterating. -/
inductive LoopOutcome where
  | finished (logged : List ProcErr) (ret : Option ProcErr)
  | running
  deriving DecidableEq

/-- Shallow embedding of `Service.processWhileQueueHasItems`: call
`process` repeatedly; on the distinguished empty-queue error return nil
without logging; on any other non-nil error log it (the Go code logs
`Error.Wrap(err)`) and return it. -/
def processWhileQueueHasItems (cfg : Config) (ctx : Ctx) :
    List ProcessEnv → LoopOutcome
  | [] => LoopOutcome.running
  | env :: rest =>
      match (process cfg ctx env).2 with
      | none => processWhileQueueHasItems cfg ctx rest
      | some e =>
          if isEmptyQueue e then LoopOutcome.finished [] none
          else LoopOutcome.finished [e] (some e)

/-- Admission-control state of the service against the `JobLimiter`
semaphore: `available` free units, `dispatching` units held by a
`process` call between its `Acquire` and the hand-off or release,
`running` repair jobs (each owning one unit), and `drained` units held
by the `WaitForPendingRepairs` barrier. -/
structure ServiceState where
  available : Nat
  dispatching : Nat
  running : Nat
  drained : Nat
  deriving DecidableEq

/-- One observable transition of the service with `JobLimiter` capacity
`n`: `acquire` is `process` taking one unit before `Select`;
`selectFail` is the release on a `Select` error; `spawn` hands the unit
to a new repair goroutine; `finish` is the goroutine's deferred
release; `barrierAcquire`/`barrierRelease` are the full-capacity
acquire and release performed by `WaitForPendingRepairs`. -/
inductive SemStep (n : Nat) : ServiceState → ServiceState → Prop where
  | acquire (a d r w : Nat) :
      SemStep n ⟨a + 1, d, r, w⟩ ⟨a, d + 1, r, w⟩
  | selectFail (a d r w : Nat) :
      SemStep n ⟨a, d + 1, r, w⟩ ⟨a + 1, d, r, w⟩
  | spawn (a d r w : Nat) :
      SemStep n ⟨a, d + 1, r, w⟩ ⟨a, d, r + 1, w⟩
  | finish (a d r w : Nat) :
      SemStep n ⟨a, d, r + 1, w⟩ ⟨a + 1, d, r, w⟩
  | barrierAcquire (a d r w : Nat) :
      SemStep n ⟨a + n, d, r, w⟩ ⟨a, d, r, w + n⟩
  | barrierRelease (a d r w : Nat) :
      SemStep n ⟨a, d, r, w + n⟩ ⟨a + n, d, r, w⟩

/-- The states reachable from the freshly constructed service
(`NewService` builds the semaphore with `MaxRepair` free units and
nothing in flight). -/
inductive SemReachable (n : Nat) : ServiceState → Prop where
  | init : SemReachable n ⟨n, 0, 0, 0⟩
  | step {s t : ServiceState} :
      SemReachable n s → SemStep n s t → SemReachable n t

/-- C3: for every segment whose `Repair` call returns
`shouldDelete = true` with an irreparable error carrying
`piecesRequired` and `piecesAvailable`, when `IncrementRepairAttempts`
succeeds the worker writes an `IrreparableSegment` record whose
`LostPieces` is `piecesRequired - piecesAvailable` (timestamp the
current time, attempt count 1) and calls `queue.Delete` for that
segment. -/
theorem irreparable_recorded_and_deleted
    (seg : InjuredSegment) (env : WorkerEnv) (info : Nat) (req avail : Int)
    (hS : env.repairShouldDelete = true)
    (hE : env.repairErr = some (Err.irreparable info req avail))
    (hI : env.incrementErr = none) :
    (worker seg env).irrDBWrites =
      [⟨seg.path, info, req - avail, env.now, 1⟩] ∧
    (worker seg env).queueDeletes = [seg] := by
  cases hd : env.deleteErr <;>
    simp [worker, workerBody, finishWorker, errsCombine, hS, hE, hI, hd]

/-- Witness for C3: a concrete irreparable outcome with 10 pieces
required and 3 available is recorded with 7 lost pieces and deleted. -/
theorem irreparable_recorded_and_deleted_witness :
    (worker ⟨[1], 0⟩
        ⟨true, some (Err.irreparable 4 10 3), none, none, 50, 60, 70⟩).irrDBWrites
      = [⟨[1], 4, 7, 50, 1⟩] ∧
    (worker ⟨[1], 0⟩
        ⟨true, some (Err.irreparable 4 10 3), none, none, 50, 60, 70⟩).queueDeletes
      = [⟨[1], 0⟩] := by
  simpa using
    irreparable_recorded_and_deleted ⟨[1], 0⟩
      ⟨true, some (Err.irreparable 4 10 3), none, none, 50, 60, 70⟩
      4 10 3 rfl rfl rfl

/-- C4: for every segment whose `Repair` call returns
`shouldDelete = true` with an irreparable error, if
`IncrementRepairAttempts` fails the worker does not call `queue.Delete`
(the item is left in the repair queue), logs the store failure, and the
job outcome is still the wrapped irreparable error, not the store
error. -/
theorem store_failure_leaves_item_in_queue
    (seg : InjuredSegment) (env : WorkerEnv) (info : Nat) (req avail : Int)
    (sErr : Err)
    (hS : env.repairShouldDelete = true)
    (hE : env.repairErr = some (Err.irreparable info req avail))
    (hI : env.incrementErr = some sErr) :
    (worker seg env).queueDeletes = [] ∧
    (worker seg env).loggedStoreFailure = true ∧
    (worker seg env).ret =
      some (Err.wrapped (Err.irreparable info req avail)) := by
  simp [worker, workerBody, finishWorker, hS, hE, hI]

/-- Witness for C4: a concrete irreparable outcome whose store write
fails is not deleted, the failure is logged, and the irreparable error
is returned. -/
theorem store_failure_leaves_item_in_queue_witness :
    (worker ⟨[1], 0⟩
        ⟨true, some (Err.irreparable 4 10 3), some (Err.storeFail 9), none,
          50, 60, 70⟩).queueDeletes = [] ∧
    (worker ⟨[1], 0⟩
        ⟨true, some (Err.irreparable 4 10 3), some (Err.storeFail 9), none,
          50, 60, 70⟩).loggedStoreFailure = true ∧
    (worker ⟨[1], 0⟩
        ⟨true, some (Err.irreparable 4 10 3), some (Err.storeFail 9), none,
          50, 60, 70⟩).ret =
      some (Err.wrapped (Err.irreparable 4 10 3)) :=
  store_failure_leaves_item_in_queue ⟨[1], 0⟩
    ⟨true, some (Err.irreparable 4 10 3), some (Err.storeFail 9), none,
      50, 60, 70⟩ 4 10 3 (Err.storeFail 9) rfl rfl rfl

/-- C5: for every segment whose `Repair` call returns
`shouldDelete = true` and a nil error, the worker calls `queue.Delete`
for that segment and performs no write to the irreparable record
store. -/
theorem success_deletes_without_store_write
    (seg : InjuredSegment) (env : WorkerEnv)
    (hS : env.repairShouldDelete = true)
    (hE : env.repairErr = none) :
    (worker seg env).queueDeletes = [seg] ∧
    (worker seg env).irrDBWrites = [] := by
  cases hd : env.deleteErr <;>
    simp [worker, workerBody, finishWorker, errsCombine, hS, hE, hd]

/-- Witness for C5: a concrete clean repair is deleted from the queue
and writes nothing to the irreparable store. -/
theorem success_deletes_without_store_write_witness :
    (worker ⟨[2], 0⟩ ⟨true, none, none, none, 50, 60, 70⟩).queueDeletes
      = [⟨[2], 0⟩] ∧
    (worker ⟨[2], 0⟩ ⟨true, none, none, none, 50, 60, 70⟩).irrDBWrites
      = [] :=
  success_deletes_without_store_write ⟨[2], 0⟩
    ⟨true, none, none, none, 50, 60, 70⟩ rfl rfl

/-- C8: for every worker run that completes without a remaining error,
a segment with a zero insertion timestamp yields exactly the repair
duration observation, while a non-zero insertion timestamp yields both
the repair duration and the time-since-queued observation. -/
theorem success_metrics
    (seg : InjuredSegment) (env : WorkerEnv)
    (h : (worker seg env).ret = none) :
    (worker seg env).metrics =
      (if seg.insertedTime = 0 then
        [MetricObs.timeForRepair (env.repairedTime - env.workerStartTime)]
      else
        [MetricObs.timeForRepair (env.repairedTime - env.workerStartTime),
          MetricObs.timeSinceCheckerQueue
            (env.workerStartTime - seg.insertedTime)]) := by
  unfold worker finishWorker at h ⊢
  cases hb : (workerBody seg env).err with
  | some e => rw [hb] at h; simp at h
  | none => rfl

/-- Witness for C8: a concrete error-free run on a legacy segment
(zero insertion timestamp) records only the repair duration. -/
theorem success_metrics_witness :
    (worker ⟨[3], 0⟩ ⟨false, none, none, none, 0, 100, 250⟩).metrics =
      (if (0 : Int) = 0 then
        [MetricObs.timeForRepair ((250 : Int) - 100)]
      else
        [MetricObs.timeForRepair ((250 : Int) - 100),
          MetricObs.timeSinceCheckerQueue ((100 : Int) - 0)]) :=
  success_metrics ⟨[3], 0⟩ ⟨false, none, none, none, 0, 100, 250⟩ rfl

/-- C9: for every segment whose `Repair` call returns
`shouldDelete = false`, whatever the returned error, the worker calls
neither `queue.Delete` nor the irreparable record store. -/
theorem no_effects_when_not_should_delete
    (seg : InjuredSegment) (env : WorkerEnv)
    (hS : env.repairShouldDelete = false) :
    (worker seg env).queueDeletes = [] ∧
    (worker seg env).irrDBWrites = [] := by
  cases he : env.repairErr <;>
    simp [worker, workerBody, finishWorker, hS, he]

/-- Witness for C9: a concrete `shouldDelete = false` outcome touches
neither store. -/
theorem no_effects_when_not_should_delete_witness :
    (worker ⟨[4], 0⟩
        ⟨false, some (Err.generic 2), none, none, 50, 60, 70⟩).queueDeletes
      = [] ∧
    (worker ⟨[4], 0⟩
        ⟨false, some (Err.generic 2), none, none, 50, 60, 70⟩).irrDBWrites
      = [] :=
  no_effects_when_not_should_delete ⟨[4], 0⟩
    ⟨false, some (Err.generic 2), none, none, 50, 60, 70⟩ rfl

/-- C10: whenever `Repair` returns a non-nil error, the worker returns
a non-nil wrapped error and records no timing observations, on every
path, including the one where the segment is recorded as irreparable
and deleted from the queue. -/
theorem repair_error_wrapped_and_no_metrics
    (seg : InjuredSegment) (env : WorkerEnv) (e : Err)
    (hE : env.repairErr = some e) :
    (∃ e2, (worker seg env).ret = some (Err.wrapped e2)) ∧
    (worker seg env).metrics = [] := by
  cases hS : env.repairShouldDelete <;> cases e <;>
    cases hI : env.incrementErr <;> cases hd : env.deleteErr <;>
      simp [worker, workerBody, finishWorker, errsCombine, hS, hE, hI, hd]

/-- Witness for C10: the concrete irreparable case whose store write
and queue delete both succeed still returns the wrapped original error
and records no metrics. -/
theorem repair_error_wrapped_and_no_metrics_witness :
    (∃ e2, (worker ⟨[5], 0⟩
        ⟨true, some (Err.irreparable 4 10 3), none, none, 50, 60, 70⟩).ret
      = some (Err.wrapped e2)) ∧
    (worker ⟨[5], 0⟩
        ⟨true, some (Err.irreparable 4 10 3), none, none, 50, 60, 70⟩).metrics
      = [] :=
  repair_error_wrapped_and_no_metrics ⟨[5], 0⟩
    ⟨true, some (Err.irreparable 4 10 3), none, none, 50, 60, 70⟩
    (Err.irreparable 4 10 3) rfl

/-- C2: in every `process` execution that passes admission, the
deadline context with deadline `now + TotalTimeout` is derived strictly
before the `queue.Select` call, and that `Select` call receives the
deadline-bearing context. -/
theorem deadline_derived_before_select
    (cfg : Config) (ctx : Ctx) (env : ProcessEnv)
    (h : env.acquireCanceled = false) :
    ∃ i j, i < j ∧
      (process cfg ctx env).1.get? i =
        some (Action.deriveDeadline (env.now + cfg.totalTimeout)) ∧
      (process cfg ctx env).1.get? j =
        some (Action.select
          (Ctx.withDeadline ctx (env.now + cfg.totalTimeout))) := by
  refine ⟨1, 2, by omega, ?_, ?_⟩ <;>
    cases hs : env.selectResult <;> simp [process, h, hs]

/-- Witness for C2 at a concrete configuration and queue outcome. -/
theorem deadline_derived_before_select_witness :
    ∃ i j, i < j ∧
      (process ⟨5, 60, 2700⟩ Ctx.base
        ⟨false, Except.error SelectErr.emptyQueue, 100⟩).1.get? i =
        some (Action.deriveDeadline ((100 : Int) + 2700)) ∧
      (process ⟨5, 60, 2700⟩ Ctx.base
        ⟨false, Except.error SelectErr.emptyQueue, 100⟩).1.get? j =
        some (Action.select
          (Ctx.withDeadline Ctx.base ((100 : Int) + 2700))) :=
  deadline_derived_before_select ⟨5, 60, 2700⟩ Ctx.base
    ⟨false, Except.error SelectErr.emptyQueue, 100⟩ rfl

/-- C7: in every `process` execution where `queue.Select` returns an
error, the admission unit is released exactly once, the derived
deadline context is cancelled, no job is spawned, and the `Select`
error is returned unchanged. -/
theorem select_error_cleanup
    (cfg : Config) (ctx : Ctx) (env : ProcessEnv) (e : SelectErr)
    (hA : env.acquireCanceled = false)
    (hS : env.selectResult = Except.error e) :
    (process cfg ctx env).1.countP isRelease = 1 ∧
    (process cfg ctx env).1.countP isCancel = 1 ∧
    (process cfg ctx env).1.countP isSpawn = 0 ∧
    (process cfg ctx env).2 = some (ProcErr.selectE e) := by
  simp [process, hA, hS, List.countP_cons, List.countP_nil,
    isRelease, isCancel, isSpawn]

/-- Witness for C7 at a concrete I/O failure of the queue. -/
theorem select_error_cleanup_witness :
    (process ⟨5, 60, 2700⟩ Ctx.base
      ⟨false, Except.error (SelectErr.ioErr 7), 100⟩).1.countP isRelease
      = 1 ∧
    (process ⟨5, 60, 2700⟩ Ctx.base
      ⟨false, Except.error (SelectErr.ioErr 7), 100⟩).1.countP isCancel
      = 1 ∧
    (process ⟨5, 60, 2700⟩ Ctx.base
      ⟨false, Except.error (SelectErr.ioErr 7), 100⟩).1.countP isSpawn
      = 0 ∧
    (process ⟨5, 60, 2700⟩ Ctx.base
      ⟨false, Except.error (SelectErr.ioErr 7), 100⟩).2 =
      some (ProcErr.selectE (SelectErr.ioErr 7)) :=
  select_error_cleanup ⟨5, 60, 2700⟩ Ctx.base
    ⟨false, Except.error (SelectErr.ioErr 7), 100⟩ (SelectErr.ioErr 7)
    rfl rfl

/-- C6: the drain loop calls the dispatch step repeatedly; on the
distinguished empty-queue error it returns nil with no logging, and on
every other non-nil step error it logs the error and returns it. -/
theorem drain_loop_stops_on_error
    (cfg : Config) (ctx : Ctx) (pre : List ProcessEnv) (env : ProcessEnv)
    (rest : List ProcessEnv) (e : ProcErr)
    (hpre : ∀ p ∈ pre, (process cfg ctx p).2 = none)
    (he : (process cfg ctx env).2 = some e) :
    processWhileQueueHasItems cfg ctx (pre ++ env :: rest) =
      (if isEmptyQueue e then LoopOutcome.finished [] none
        else LoopOutcome.finished [e] (some e)) := by
  induction pre with
  | nil => simp only [List.nil_append, processWhileQueueHasItems, he]
  | cons p ps ih =>
      have hp := hpre p (List.mem_cons_self p ps)
      have hrec := ih fun q hq => hpre q (List.mem_cons_of_mem p hq)
      simpa [processWhileQueueHasItems, hp] using hrec

/-- Witness for C6: a concrete burst where the first iteration
dispatches a job and the second hits the empty queue ends cleanly. -/
theorem drain_loop_stops_on_error_witness :
    processWhileQueueHasItems ⟨5, 60, 2700⟩ Ctx.base
      ([⟨false, Except.ok ⟨[6], 0⟩, 100⟩] ++
        ⟨false, Except.error SelectErr.emptyQueue, 200⟩ :: []) =
      (if isEmptyQueue (ProcErr.selectE SelectErr.emptyQueue) then
        LoopOutcome.finished [] none
      else
        LoopOutcome.finished [ProcErr.selectE SelectErr.emptyQueue]
          (some (ProcErr.selectE SelectErr.emptyQueue))) :=
  drain_loop_stops_on_error ⟨5, 60, 2700⟩ Ctx.base
    [⟨false, Except.ok ⟨[6], 0⟩, 100⟩]
    ⟨false, Except.error SelectErr.emptyQueue, 200⟩ [] _
    (by simp [process]) rfl

/-- Invariant of the admission semaphore: in every reachable state the
free, dispatching, running and barrier-held units sum to the configured
capacity. -/
theorem sem_units_conserved {n : Nat} {s : ServiceState}
    (h : SemReachable n s) :
    s.available + s.dispatching + s.running + s.drained = n := by
  induction h with
  | init => rfl
  | step _ hstep ih => cases hstep <;> simp_all <;> omega

/-- C1: for every configured `MaxRepair` capacity, in every reachable
state of the service the number of concurrently running repair jobs
never exceeds `MaxRepair`. -/
theorem concurrent_repairs_bounded (cfg : Config) {s : ServiceState}
    (h : SemReachable cfg.maxRepair s) : s.running ≤ cfg.maxRepair := by
  have hinv := sem_units_conserved h
  omega

/-- Witness for C1: with capacity 2, the state reached by one acquire
and one spawn has one running job, within the bound. -/
theorem concurrent_repairs_bounded_witness :
    (⟨1, 0, 1, 0⟩ : ServiceState).running ≤ (Config.mk 2 60 2700).maxRepair :=
  concurrent_repairs_bounded (Config.mk 2 60 2700)
    (SemReachable.step
      (SemReachable.step SemReachable.init (SemStep.acquire 1 0 0 0))
      (SemStep.spawn 1 0 0 0))

end Repairer
